import Mathlib

/-!
Shallow embedding of the QEMU usermode binding layer (`libafl_qemu/src/emu.rs`).

The Rust layer sits on top of a native C engine reached through `extern "C"`
declarations.  Machine integers are modelled as `Nat` (with explicit `% 2^64`
where host pointer arithmetic wraps) or `Int` for signed C results; the native
entry points are modelled as oracle function parameters, so every theorem holds
for every possible native behaviour.  The embedding fixes the 64-bit
`cpu_target` configuration, where `GuestAddr = u64` and host `usize` is 64 bits
wide; the guest-address truncation cast is kept explicit (parameter `G`) so the
32-bit configuration is covered by the same statements.
-/

namespace LibaflQemu

/-- Modulus of host `usize` arithmetic (64-bit host). -/
def USIZE_MOD : Nat := 2 ^ 64

/-- Model of `Emulator::g2h`: `(addr as usize + guest_base) as *mut T` — wrapping add of
the fixed `guest_base` captured from the native layer. -/
def g2h (base addr : Nat) : Nat := (addr + base) % USIZE_MOD

/-- Model of `Emulator::h2g`: `(addr as usize - guest_base) as GuestAddr` — wrapping
subtraction of `guest_base` in `usize`, then the cast to `GuestAddr`, a
truncation to the guest word width `G`. -/
def h2g (G base p : Nat) : Nat := ((p + (USIZE_MOD - base)) % USIZE_MOD) % G

/-- Model of `MmapPerms`, `#[repr(i32)]` with the `libc::PROT_*` composition. -/
inductive MmapPerms where
  | None
  | Read
  | Write
  | Execute
  | ReadWrite
  | ReadExecute
  | WriteExecute
  | ReadWriteExecute
  deriving DecidableEq

/-- The `IntoPrimitive` value of each variant: `PROT_READ = 1`,
`PROT_WRITE = 2`, `PROT_EXEC = 4`, unions by bitwise or. -/
def MmapPerms.toProt : MmapPerms → Nat
  | MmapPerms.None => 0
  | MmapPerms.Read => 1
  | MmapPerms.Write => 2
  | MmapPerms.Execute => 4
  | MmapPerms.ReadWrite => 3
  | MmapPerms.ReadExecute => 5
  | MmapPerms.WriteExecute => 6
  | MmapPerms.ReadWriteExecute => 7

/-- Model of `MmapPerms::is_r`. -/
def MmapPerms.is_r : MmapPerms → Bool
  | MmapPerms.Read | MmapPerms.ReadWrite | MmapPerms.ReadExecute
  | MmapPerms.ReadWriteExecute => true
  | _ => false

/-- Model of `MmapPerms::is_w`. -/
def MmapPerms.is_w : MmapPerms → Bool
  | MmapPerms.Write | MmapPerms.ReadWrite | MmapPerms.WriteExecute
  | MmapPerms.ReadWriteExecute => true
  | _ => false

/-- Model of `MmapPerms::is_x`. -/
def MmapPerms.is_x : MmapPerms → Bool
  | MmapPerms.Execute | MmapPerms.ReadExecute | MmapPerms.WriteExecute
  | MmapPerms.ReadWriteExecute => true
  | _ => false

/-- Model of `SyscallHookResult` with fields `retval` and `skip_syscall`. -/
structure SyscallHookResult where
  retval : Nat
  skip_syscall : Bool
  deriving DecidableEq

/-- Model of `SyscallHookResult::new(value: Option<u64>)`. -/
def SyscallHookResult.new (value : Option Nat) : SyscallHookResult :=
  match value with
  | Option.none => SyscallHookResult.mk 0 false
  | Option.some v => SyscallHookResult.mk v true

/-- Model of `Emulator::new(args, env)`.  The process-wide flag
`EMULATOR_IS_INITIALIZED` is the explicit state (`flag`); `assert!` failure is
an abort, modelled as `Option.none`.  The source asserts, in order: the flag is
unset, `args` is non-empty, and `argv.len() < i32::MAX`; on success it calls
`qemu_user_init`, sets the flag, and returns the (unit-payload) handle.  The
returned `Bool` is the updated flag. -/
def emulator_new (flag : Bool) (args : List String) : Option Bool :=
  if flag then Option.none
  else if args.isEmpty then Option.none
  else if args.length < 2147483647 then Option.some true
  else Option.none

/-- Constant `libc::MAP_PRIVATE` (0x02), for the x86_64 target. -/
def MAP_PRIVATE : Nat := 2

/-- Constant `libc::MAP_ANONYMOUS` (0x20). -/
def MAP_ANONYMOUS : Nat := 32

/-- Constant `libc::MAP_FIXED` (0x10). -/
def MAP_FIXED : Nat := 16

/-- Model of `Emulator::mmap`: calls `target_mmap` (oracle `tm`) and treats a zero
return as the failure sentinel. -/
def Emulator.mmap (tm : Nat → Nat → Nat → Nat → Nat) (addr size : Nat)
    (perms : MmapPerms) (flags : Nat) : Except Unit Nat :=
  if tm addr size perms.toProt flags = 0 then Except.error ()
  else Except.ok (tm addr size perms.toProt flags)

/-- Model of `Emulator::map_private`: `mmap` with `MAP_PRIVATE | MAP_ANONYMOUS`, the
error replaced by a message carrying the requested address. -/
def Emulator.map_private (tm : Nat → Nat → Nat → Nat → Nat) (addr size : Nat)
    (perms : MmapPerms) : Except String Nat :=
  match Emulator.mmap tm addr size perms (MAP_PRIVATE.lor MAP_ANONYMOUS) with
  | Except.error _ => Except.error ("Failed to map " ++ toString addr)
  | Except.ok v => Except.ok v

/-- Model of `Emulator::map_fixed`: `mmap` with `MAP_FIXED | MAP_PRIVATE |
MAP_ANONYMOUS`. -/
def Emulator.map_fixed (tm : Nat → Nat → Nat → Nat → Nat) (addr size : Nat)
    (perms : MmapPerms) : Except String Nat :=
  match Emulator.mmap tm addr size perms
      (MAP_FIXED.lor (MAP_PRIVATE.lor MAP_ANONYMOUS)) with
  | Except.error _ => Except.error ("Failed to map " ++ toString addr)
  | Except.ok v => Except.ok v

/-- Model of `Emulator::mprotect`: `target_mprotect` (oracle `tp`, an `i32` result);
zero means success. -/
def Emulator.mprotect (tp : Nat → Nat → Nat → Int) (addr size : Nat)
    (perms : MmapPerms) : Except String Unit :=
  if tp addr size perms.toProt = 0 then Except.ok ()
  else Except.error ("Failed to mprotect " ++ toString addr)

/-- Model of `Emulator::unmap`: `target_munmap` (oracle `tu`, an `i32` result); zero
means success. -/
def Emulator.unmap (tu : Nat → Nat → Int) (addr size : Nat) :
    Except String Unit :=
  if tu addr size = 0 then Except.ok ()
  else Except.error ("Failed to unmap " ++ toString addr)

/-- Model of `Emulator::write_reg`: `libafl_qemu_write_reg` (oracle `wr` over the
register index and the value) returns an `i32`; zero signals failure. -/
def Emulator.write_reg (wr : Int → Nat → Int) (reg : Int) (val : Nat) :
    Except String Unit :=
  if wr reg val = 0 then
    Except.error ("Failed to write to register " ++ toString reg)
  else Except.ok ()

/-- Model of `Emulator::read_reg`: `libafl_qemu_read_reg` gets a pointer to a zeroed
out-parameter; the oracle `rd` yields the `i32` status and the out-parameter's
contents after the call.  Zero status signals failure; otherwise the
out-parameter's value is returned. -/
def Emulator.read_reg (rd : Int → Int × Nat) (reg : Int) : Except String Nat :=
  if (rd reg).1 = 0 then
    Except.error ("Failed to read register " ++ toString reg)
  else Except.ok (rd reg).2

/-- Host memory: a byte store indexed by host address. -/
def memWrite (mem : Nat → Nat) (s b : Nat) : Nat → Nat :=
  fun t => if t = s then b else mem t

/-- Model of `copy_nonoverlapping(buf.as_ptr(), host_addr, buf.len())` as seen from the
destination: bytes land at consecutive host pointers, dereferenced modulo the
host word. -/
def copyToHost (mem : Nat → Nat) (p : Nat) : List Nat → (Nat → Nat)
  | [] => mem
  | b :: bs => copyToHost (memWrite mem (p % USIZE_MOD) b) (p + 1) bs

/-- Model of `copy_nonoverlapping(host_addr, buf.as_mut_ptr(), buf.len())` as seen from
the source: the bytes at consecutive host pointers. -/
def copyFromHost (mem : Nat → Nat) : Nat → Nat → List Nat
  | _, 0 => []
  | p, n + 1 => mem (p % USIZE_MOD) :: copyFromHost mem (p + 1) n

/-- Model of `Emulator::write_mem(addr, buf)`: copy `buf` to `g2h(addr)`. -/
def Emulator.write_mem (mem : Nat → Nat) (base addr : Nat) (buf : List Nat) :
    Nat → Nat :=
  copyToHost mem (g2h base addr) buf

/-- Model of `Emulator::read_mem(addr, buf)`: fill a buffer of length `n` from
`g2h(addr)`. -/
def Emulator.read_mem (mem : Nat → Nat) (base addr n : Nat) : List Nat :=
  copyFromHost mem (g2h base addr) n

/-- Model of `MapInfo`: one guest mapping entry as written by the native layer (`path`
is the raw pointer field). -/
structure MapInfo where
  start : Nat
  end_ : Nat
  offset : Nat
  path : Nat
  flags : Int
  is_priv : Int
  deriving DecidableEq

/-- Model of `GuestMaps`: the snapshot handle taken at construction (`orig_c_iter`) and
the advancing cursor (`c_iter`); a native null pointer is `Option.none`. -/
structure GuestMaps where
  orig_c_iter : Option Nat
  c_iter : Option Nat
  deriving DecidableEq

/-- Model of `GuestMaps::new`: `read_self_maps()` yields the snapshot handle `snap`;
both fields start there. -/
def GuestMaps.new (snap : Option Nat) : GuestMaps :=
  GuestMaps.mk snap snap

/-- Model of `<GuestMaps as Iterator>::next`.  The oracle `f` is `libafl_maps_next` on a
non-null cursor: the entry it writes through `ret` and the cursor it returns.
A null cursor on entry yields `None` at once; otherwise the returned cursor is
stored, and a null returned cursor also yields `None`. -/
def GuestMaps.next (f : Nat → MapInfo × Option Nat) (s : GuestMaps) :
    Option MapInfo × GuestMaps :=
  match s.c_iter with
  | Option.none => (Option.none, s)
  | Option.some c =>
    match (f c).2 with
    | Option.none => (Option.none, GuestMaps.mk s.orig_c_iter Option.none)
    | Option.some c2 =>
      (Option.some (f c).1, GuestMaps.mk s.orig_c_iter (Option.some c2))

/-- Calls into the native snapshot layer, for accounting the resource
obligation. -/
inductive NativeCall where
  | readSelfMaps (ret : Option Nat)
  | mapsNext (cursor : Nat)
  | freeSelfMaps (handle : Option Nat)
  deriving DecidableEq

/-- Whether a native call is `free_self_maps`. -/
def isFree : NativeCall → Bool
  | NativeCall.freeSelfMaps _ => true
  | _ => false

/-- The native calls one `next()` issues from state `s`: nothing on a null
cursor, one `libafl_maps_next` otherwise — never a free. -/
def GuestMaps.nextEmits (s : GuestMaps) : List NativeCall :=
  match s.c_iter with
  | Option.none => []
  | Option.some c => [NativeCall.mapsNext c]

/-- Running `n` successive `next()` calls: the final iterator state and the native
calls issued. -/
def runNexts (f : Nat → MapInfo × Option Nat) (s : GuestMaps) :
    Nat → GuestMaps × List NativeCall
  | 0 => (s, [])
  | n + 1 =>
    ((runNexts f (GuestMaps.next f s).2 n).1,
      s.nextEmits ++ (runNexts f (GuestMaps.next f s).2 n).2)

/-- Model of `<GuestMaps as Drop>::drop`: one `free_self_maps(orig_c_iter)` call. -/
def GuestMaps.dropEmits (s : GuestMaps) : List NativeCall :=
  [NativeCall.freeSelfMaps s.orig_c_iter]

/-- The native calls over a whole `GuestMaps` life: construction via
`read_self_maps`, then `n` calls to `next()` (any `n`, zero included), then the
drop that Rust ownership runs exactly once when the iterator goes out of
scope. -/
def lifeCalls (f : Nat → MapInfo × Option Nat) (snap : Option Nat) (n : Nat) :
    List NativeCall :=
  NativeCall.readSelfMaps snap ::
    ((runNexts f (GuestMaps.new snap) n).2 ++
      GuestMaps.dropEmits (runNexts f (GuestMaps.new snap) n).1)

/-- Modelled from the spec: `libafl_qemu_remove_hooks_at(addr, invalidate)` is
native engine code not present under the Rust sources; per the spec it removes
all hooks keyed at the given address from the address-keyed hook table, with no
failure path.  The in-source python binding's removal step
(`PY_GENERIC_HOOKS.retain`, `emu.rs`) performs the same address filter.  A
table entry is an `(address, hook)` pair. -/
def removeHooksAt (addr : Nat) (table : List (Nat × Nat)) : List (Nat × Nat) :=
  table.filter (fun e => e.1 != addr)

/-- A sample mapping entry, as a concrete native-layer output. -/
def sampleEntry : MapInfo := MapInfo.mk 4096 8192 0 0 3 1

/-- C1: translating guest-to-host and back is the identity: `h2g (g2h a) = a`
for every guest address `a`, for any `guest_base` and any guest word width `G`
(up to the host word).  `g2h` adds the fixed base, `h2g` subtracts the same
base, both wrapping in host `usize`. -/
theorem h2g_g2h (G base a : Nat) (hbase : base < USIZE_MOD) (hG : G ≤ USIZE_MOD)
    (ha : a < G) : h2g G base (g2h base a) = a := by
  unfold h2g g2h
  rw [Nat.mod_add_mod]
  have h1 : a + base + (USIZE_MOD - base) = a + USIZE_MOD := by omega
  rw [h1, Nat.add_mod_right]
  rw [Nat.mod_eq_of_lt (lt_of_lt_of_le ha hG)]
  exact Nat.mod_eq_of_lt ha

/-- Witness for `h2g_g2h` at a concrete base and address. -/
theorem h2g_g2h_witness : h2g (2 ^ 64) 4096 (g2h 4096 74565) = 74565 :=
  h2g_g2h (2 ^ 64) 4096 74565 (by norm_num [USIZE_MOD])
    (by norm_num [USIZE_MOD]) (by norm_num)

/-- C5: each of the 8 `MmapPerms` values classifies read/write/execute exactly
by membership of the `PROT_READ`/`PROT_WRITE`/`PROT_EXEC` bit in its numeric
composition; `None` has all three false and `ReadWriteExecute` all three
true. -/
theorem mmapPerms_bit_classification :
    ∀ p : MmapPerms,
      p.is_r = p.toProt.testBit 0 ∧ p.is_w = p.toProt.testBit 1 ∧
        p.is_x = p.toProt.testBit 2 := by
  intro p
  cases p <;> exact ⟨rfl, rfl, rfl⟩

/-- C10: `SyscallHookResult::new` yields `{retval: 0, skip_syscall: false}` on
`None` and `{retval: v, skip_syscall: true}` on `Some v`, so the syscall is
skipped exactly when an override value was supplied. -/
theorem syscallHookResult_new_spec :
    (∀ v : Nat, SyscallHookResult.new (Option.some v) = SyscallHookResult.mk v true)
    ∧ SyscallHookResult.new Option.none = SyscallHookResult.mk 0 false
    ∧ ∀ o : Option Nat, (SyscallHookResult.new o).skip_syscall = o.isSome := by
  refine ⟨fun v => rfl, rfl, fun o => ?_⟩
  cases o <;> rfl

/-- C2: once one `Emulator::new` has succeeded the initialized flag is set, and
any subsequent `Emulator::new` aborts (returns no handle); `Emulator::new` with
empty `args` also aborts. -/
theorem emulator_new_single_instance (flag : Bool) (args args2 : List String) :
    (∀ flag2, emulator_new flag args = Option.some flag2 →
        flag2 = true ∧ emulator_new flag2 args2 = Option.none)
    ∧ emulator_new flag [] = Option.none := by
  constructor
  · intro flag2 hsome
    unfold emulator_new at hsome
    by_cases hf : flag
    · simp [hf] at hsome
    · by_cases he : args.isEmpty
      · simp [hf, he] at hsome
      · by_cases hl : args.length < 2147483647
        · simp [hf, he, hl] at hsome
          exact ⟨hsome, by simp [emulator_new, hsome]⟩
        · simp [hf, he, hl] at hsome
  · unfold emulator_new
    by_cases hf : flag <;> simp [hf]

/-- Witness for `emulator_new_single_instance`: a first construction with
`args = ["target"]` succeeds and sets the flag; a second aborts; empty args
abort. -/
theorem emulator_new_single_instance_witness :
    emulator_new false ["target"] = Option.some true
    ∧ emulator_new true ["target"] = Option.none
    ∧ emulator_new false [] = Option.none :=
  ⟨rfl,
    ((emulator_new_single_instance false ["target"] ["target"]).1 true rfl).2,
    (emulator_new_single_instance false ["target"] ["target"]).2⟩

/-- C3: `map_private` and `map_fixed` return an error carrying the requested
address exactly when `target_mmap` returns the zero sentinel, and otherwise the
resulting address; `mprotect` and `unmap` return unit exactly when the native
call returns zero, and otherwise an error carrying the requested address. -/
theorem mapping_error_sentinels (tm : Nat → Nat → Nat → Nat → Nat)
    (tp : Nat → Nat → Nat → Int) (tu : Nat → Nat → Int)
    (addr size : Nat) (perms : MmapPerms) :
    (Emulator.map_private tm addr size perms
        = Except.error ("Failed to map " ++ toString addr)
      ↔ tm addr size perms.toProt (MAP_PRIVATE.lor MAP_ANONYMOUS) = 0)
    ∧ (tm addr size perms.toProt (MAP_PRIVATE.lor MAP_ANONYMOUS) ≠ 0 →
        Emulator.map_private tm addr size perms
          = Except.ok (tm addr size perms.toProt (MAP_PRIVATE.lor MAP_ANONYMOUS)))
    ∧ (Emulator.map_fixed tm addr size perms
        = Except.error ("Failed to map " ++ toString addr)
      ↔ tm addr size perms.toProt (MAP_FIXED.lor (MAP_PRIVATE.lor MAP_ANONYMOUS)) = 0)
    ∧ (tm addr size perms.toProt (MAP_FIXED.lor (MAP_PRIVATE.lor MAP_ANONYMOUS)) ≠ 0 →
        Emulator.map_fixed tm addr size perms
          = Except.ok (tm addr size perms.toProt
              (MAP_FIXED.lor (MAP_PRIVATE.lor MAP_ANONYMOUS))))
    ∧ (Emulator.mprotect tp addr size perms = Except.ok ()
      ↔ tp addr size perms.toProt = 0)
    ∧ (tp addr size perms.toProt ≠ 0 →
        Emulator.mprotect tp addr size perms
          = Except.error ("Failed to mprotect " ++ toString addr))
    ∧ (Emulator.unmap tu addr size = Except.ok () ↔ tu addr size = 0)
    ∧ (tu addr size ≠ 0 →
        Emulator.unmap tu addr size
          = Except.error ("Failed to unmap " ++ toString addr)) := by
  refine ⟨?_, ?_, ?_, ?_, ?_, ?_, ?_, ?_⟩
  · by_cases h : tm addr size perms.toProt (MAP_PRIVATE.lor MAP_ANONYMOUS) = 0 <;>
      simp [Emulator.map_private, Emulator.mmap, h]
  · intro h
    simp [Emulator.map_private, Emulator.mmap, h]
  · by_cases h : tm addr size perms.toProt
        (MAP_FIXED.lor (MAP_PRIVATE.lor MAP_ANONYMOUS)) = 0 <;>
      simp [Emulator.map_fixed, Emulator.mmap, h]
  · intro h
    simp [Emulator.map_fixed, Emulator.mmap, h]
  · by_cases h : tp addr size perms.toProt = 0 <;> simp [Emulator.mprotect, h]
  · intro h
    simp [Emulator.mprotect, h]
  · by_cases h : tu addr size = 0 <;> simp [Emulator.unmap, h]
  · intro h
    simp [Emulator.unmap, h]

/-- Witness for `mapping_error_sentinels`: concrete oracles exercising the
zero-sentinel failure of `map_private`, success of `map_private`, success of
`mprotect`, and failure of `unmap`. -/
theorem mapping_error_sentinels_witness :
    Emulator.map_private (fun _ _ _ _ => 0) 4096 4096 MmapPerms.ReadWrite
      = Except.error ("Failed to map " ++ toString 4096)
    ∧ Emulator.map_private (fun _ _ _ _ => 8192) 4096 4096 MmapPerms.ReadWrite
      = Except.ok 8192
    ∧ Emulator.mprotect (fun _ _ _ => 0) 4096 4096 MmapPerms.Read
      = Except.ok ()
    ∧ Emulator.unmap (fun _ _ => (1 : Int)) 4096 4096
      = Except.error ("Failed to unmap " ++ toString 4096) :=
  ⟨(mapping_error_sentinels (fun _ _ _ _ => 0) (fun _ _ _ => 0) (fun _ _ => 0)
      4096 4096 MmapPerms.ReadWrite).1.mpr rfl,
    (mapping_error_sentinels (fun _ _ _ _ => 8192) (fun _ _ _ => 0) (fun _ _ => 0)
      4096 4096 MmapPerms.ReadWrite).2.1 (by decide),
    (mapping_error_sentinels (fun _ _ _ _ => 0) (fun _ _ _ => 0) (fun _ _ => 0)
      4096 4096 MmapPerms.Read).2.2.2.2.1.mpr rfl,
    (mapping_error_sentinels (fun _ _ _ _ => 0) (fun _ _ _ => 0) (fun _ _ => 1)
      4096 4096 MmapPerms.Read).2.2.2.2.2.2.2 (by decide)⟩

/-- C4: `read_reg` and `write_reg` return an error message carrying the
register index exactly when the native call returns zero; otherwise `read_reg`
returns the value the native layer left in its out-parameter and `write_reg`
returns unit. -/
theorem register_error_sentinels (wr : Int → Nat → Int) (rd : Int → Int × Nat)
    (reg : Int) (val : Nat) :
    (Emulator.write_reg wr reg val
        = Except.error ("Failed to write to register " ++ toString reg)
      ↔ wr reg val = 0)
    ∧ (wr reg val ≠ 0 → Emulator.write_reg wr reg val = Except.ok ())
    ∧ (Emulator.read_reg rd reg
        = Except.error ("Failed to read register " ++ toString reg)
      ↔ (rd reg).1 = 0)
    ∧ ((rd reg).1 ≠ 0 → Emulator.read_reg rd reg = Except.ok (rd reg).2) := by
  refine ⟨?_, ?_, ?_, ?_⟩
  · by_cases h : wr reg val = 0 <;> simp [Emulator.write_reg, h]
  · intro h
    simp [Emulator.write_reg, h]
  · by_cases h : (rd reg).1 = 0 <;> simp [Emulator.read_reg, h]
  · intro h
    simp [Emulator.read_reg, h]

/-- Witness for `register_error_sentinels`: a failing write to register 3 and a
successful read of register 3 returning the out-parameter value 99. -/
theorem register_error_sentinels_witness :
    Emulator.write_reg (fun _ _ => 0) 3 7
      = Except.error ("Failed to write to register " ++ toString (3 : Int))
    ∧ Emulator.read_reg (fun _ => ((1 : Int), 99)) 3 = Except.ok 99 :=
  ⟨(register_error_sentinels (fun _ _ => 0) (fun _ => (1, 99)) 3 7).1.mpr rfl,
    (register_error_sentinels (fun _ _ => 0) (fun _ => (1, 99)) 3 7).2.2.2
      (by decide)⟩

/-- A byte copy leaves untouched every host cell outside the written window. -/
theorem copyToHost_untouched (bs : List Nat) (mem : Nat → Nat) (q s : Nat)
    (h : ∀ i, i < bs.length → (q + i) % USIZE_MOD ≠ s) :
    copyToHost mem q bs s = mem s := by
  induction bs generalizing mem q with
  | nil => rfl
  | cons b bs ih =>
    have h0 : (q % USIZE_MOD) ≠ s := by
      have := h 0 (by simp)
      simpa using this
    have hrest : ∀ i, i < bs.length → (q + 1 + i) % USIZE_MOD ≠ s := by
      intro i hi
      have h2 := h (i + 1) (by simp only [List.length_cons]; omega)
      have heq : q + 1 + i = q + (i + 1) := by omega
      rw [heq]
      exact h2
    rw [copyToHost, ih (memWrite mem (q % USIZE_MOD) b) (q + 1) hrest]
    simp only [memWrite]
    rw [if_neg (fun hEq => h0 hEq.symm)]

/-- Copying a buffer to consecutive host cells and reading the same window back
returns the buffer, byte for byte (the buffer fits in the host address
space). -/
theorem copy_roundtrip (bs : List Nat) (mem : Nat → Nat) (q : Nat)
    (h : bs.length ≤ USIZE_MOD) :
    copyFromHost (copyToHost mem q bs) q bs.length = bs := by
  induction bs generalizing mem q with
  | nil => rfl
  | cons b bs ih =>
    simp only [List.length_cons] at h ⊢
    rw [copyToHost, copyFromHost]
    congr 1
    · rw [copyToHost_untouched bs (memWrite mem (q % USIZE_MOD) b) (q + 1)
        (q % USIZE_MOD) ?_]
      · simp [memWrite]
      · intro i hi hEq
        have hmod : q % USIZE_MOD = (q + (1 + i)) % USIZE_MOD := by
          rw [show q + (1 + i) = q + 1 + i by omega, hEq]
        have hdvd : USIZE_MOD ∣ q + (1 + i) - q :=
          (Nat.modEq_iff_dvd' (Nat.le_add_right _ _)).mp hmod
        have hdvd2 : USIZE_MOD ∣ 1 + i := by simpa using hdvd
        have hle := Nat.le_of_dvd (by omega) hdvd2
        omega
    · exact ih (memWrite mem (q % USIZE_MOD) b) (q + 1) (by omega)

/-- C6: after `write_mem(a, buf)`, a `read_mem(a, out)` of the same length
yields `out` byte-for-byte equal to `buf`, for every base, valid guest address
and buffer. -/
theorem write_read_roundtrip (mem : Nat → Nat) (base addr : Nat)
    (buf : List Nat) (h : buf.length ≤ USIZE_MOD) :
    Emulator.read_mem (Emulator.write_mem mem base addr buf) base addr
      buf.length = buf :=
  copy_roundtrip buf mem (g2h base addr) h

/-- Witness for `write_read_roundtrip` on a concrete memory, base, address and
buffer. -/
theorem write_read_roundtrip_witness :
    Emulator.read_mem (Emulator.write_mem (fun _ => 0) 1000 4096 [1, 2, 3])
      1000 4096 3 = [1, 2, 3] :=
  write_read_roundtrip (fun _ => 0) 1000 4096 [1, 2, 3]
    (by norm_num [USIZE_MOD])

/-- Calling `next()` on a null cursor: `None` and the state unchanged. -/
theorem guestMaps_next_of_null (f : Nat → MapInfo × Option Nat)
    (s : GuestMaps) (h : s.c_iter = Option.none) :
    GuestMaps.next f s = (Option.none, s) := by
  obtain ⟨o, ci⟩ := s
  change ci = Option.none at h
  subst h
  rfl

/-- Calling `next()` when the native advance returns a null cursor: `None`, the stored
cursor nulled. -/
theorem guestMaps_next_of_end (f : Nat → MapInfo × Option Nat) (s : GuestMaps)
    (c : Nat) (h1 : s.c_iter = Option.some c) (h2 : (f c).2 = Option.none) :
    GuestMaps.next f s
      = (Option.none, GuestMaps.mk s.orig_c_iter Option.none) := by
  obtain ⟨o, ci⟩ := s
  change ci = Option.some c at h1
  subst h1
  simp only [GuestMaps.next, h2]

/-- Calling `next()` when the native advance returns a non-null cursor: the written
entry, the new cursor stored. -/
theorem guestMaps_next_of_cont (f : Nat → MapInfo × Option Nat) (s : GuestMaps)
    (c c2 : Nat) (h1 : s.c_iter = Option.some c)
    (h2 : (f c).2 = Option.some c2) :
    GuestMaps.next f s
      = (Option.some (f c).1,
          GuestMaps.mk s.orig_c_iter (Option.some c2)) := by
  obtain ⟨o, ci⟩ := s
  change ci = Option.some c at h1
  subst h1
  simp only [GuestMaps.next, h2]

/-- Calling `next()` never changes the owned snapshot handle. -/
theorem guestMaps_next_orig (f : Nat → MapInfo × Option Nat) (s : GuestMaps) :
    (GuestMaps.next f s).2.orig_c_iter = s.orig_c_iter := by
  rcases hc : s.c_iter with _ | c
  · rw [guestMaps_next_of_null f s hc]
  · rcases hf : (f c).2 with _ | c2
    · rw [guestMaps_next_of_end f s c hc hf]
    · rw [guestMaps_next_of_cont f s c c2 hc hf]

/-- Any number of `next()` calls preserves the owned snapshot handle. -/
theorem runNexts_orig (f : Nat → MapInfo × Option Nat) :
    ∀ (n : Nat) (s : GuestMaps),
      (runNexts f s n).1.orig_c_iter = s.orig_c_iter := by
  intro n
  induction n with
  | zero => intro s; rfl
  | succ n ih =>
    intro s
    rw [runNexts]
    exact (ih ((GuestMaps.next f s).2)).trans (guestMaps_next_orig f s)

/-- A single `next()` never calls `free_self_maps`. -/
theorem nextEmits_no_free (s : GuestMaps) :
    s.nextEmits.filter isFree = [] := by
  rcases hc : s.c_iter with _ | c <;> simp [GuestMaps.nextEmits, hc, isFree]

/-- No sequence of `next()` calls ever calls `free_self_maps`. -/
theorem runNexts_no_free (f : Nat → MapInfo × Option Nat) :
    ∀ (n : Nat) (s : GuestMaps), ((runNexts f s n).2).filter isFree = [] := by
  intro n
  induction n with
  | zero => intro s; rfl
  | succ n ih =>
    intro s
    rw [runNexts]
    simp [List.filter_append, nextEmits_no_free, ih]

/-- C7: over its whole life — construction, any number of `next()` calls (zero
included, exhaustion included), then drop — a `GuestMaps` iterator issues
exactly one `free_self_maps`, and it frees exactly the snapshot handle taken at
construction. -/
theorem guestMaps_snapshot_freed_once (f : Nat → MapInfo × Option Nat)
    (snap : Option Nat) (n : Nat) :
    (lifeCalls f snap n).filter isFree = [NativeCall.freeSelfMaps snap] := by
  unfold lifeCalls
  simp [List.filter_cons, List.filter_append, isFree, runNexts_no_free,
    GuestMaps.dropEmits, runNexts_orig, GuestMaps.new]

/-- C8: `next()` yields the entry the native layer produced past the current
cursor, and `None` exactly when the cursor is null on entry or null after the
native advance; once `next()` has returned `None`, every subsequent call
returns `None`. -/
theorem guestMaps_next_spec (f : Nat → MapInfo × Option Nat) (s : GuestMaps) :
    ((GuestMaps.next f s).1 = Option.none ↔
        s.c_iter = Option.none ∨
          ∃ c, s.c_iter = Option.some c ∧ (f c).2 = Option.none)
    ∧ (∀ c, s.c_iter = Option.some c → (f c).2 ≠ Option.none →
        (GuestMaps.next f s).1 = Option.some (f c).1)
    ∧ ((GuestMaps.next f s).1 = Option.none →
        ∀ g : Nat → MapInfo × Option Nat,
          (GuestMaps.next g (GuestMaps.next f s).2).1 = Option.none) := by
  rcases hc : s.c_iter with _ | c
  · rw [guestMaps_next_of_null f s hc]
    refine ⟨by simp [hc], by simp [hc], ?_⟩
    intro _ g
    rw [guestMaps_next_of_null g s hc]
  · rcases hf : (f c).2 with _ | c2
    · rw [guestMaps_next_of_end f s c hc hf]
      refine ⟨by simp [hc, hf], by simp [hc, hf], ?_⟩
      intro _ g
      rw [guestMaps_next_of_null g (GuestMaps.mk s.orig_c_iter Option.none) rfl]
    · rw [guestMaps_next_of_cont f s c c2 hc hf]
      refine ⟨by simp [hc, hf], by simp [hc], by simp⟩

/-- Witness for `guestMaps_next_spec`: with a concrete snapshot, a native
advance to cursor 7 yields the written entry, and a native advance to null
yields end-of-sequence. -/
theorem guestMaps_next_spec_witness :
    (GuestMaps.next (fun _ => (sampleEntry, Option.some 7))
        (GuestMaps.new (Option.some 5))).1 = Option.some sampleEntry
    ∧ (GuestMaps.next (fun _ => (sampleEntry, Option.none))
        (GuestMaps.new (Option.some 5))).1 = Option.none :=
  ⟨(guestMaps_next_spec (fun _ => (sampleEntry, Option.some 7))
      (GuestMaps.new (Option.some 5))).2.1 5 rfl (by simp),
    (guestMaps_next_spec (fun _ => (sampleEntry, Option.none))
      (GuestMaps.new (Option.some 5))).1.mpr (Or.inr ⟨5, rfl, rfl⟩)⟩

/-- C9: removing all hooks at an address twice in a row leaves the same table
as removing once, and removing at an address with no installed hooks leaves the
table unchanged; there is no failure path. -/
theorem remove_hook_idempotent (addr : Nat) (table : List (Nat × Nat)) :
    removeHooksAt addr (removeHooksAt addr table) = removeHooksAt addr table
    ∧ ((∀ e ∈ table, e.1 ≠ addr) → removeHooksAt addr table = table) := by
  constructor
  · unfold removeHooksAt
    rw [List.filter_filter]
    simp
  · intro hnone
    unfold removeHooksAt
    apply List.filter_eq_self.mpr
    intro e he
    simpa using hnone e he

/-- Witness for `remove_hook_idempotent`: removing at address 5 from a table
with no hooks at 5 leaves it unchanged. -/
theorem remove_hook_idempotent_witness :
    removeHooksAt 5 [(1, 2), (3, 4)] = [(1, 2), (3, 4)] :=
  (remove_hook_idempotent 5 [(1, 2), (3, 4)]).2 (by decide)

end LibaflQemu
